import Mathlib

/-!
Verification development for the alumni-tracer name-resolution pipeline
(`Main.py`).  The Python source is embedded shallowly: pure helpers become
Lean functions, the per-candidate `while` loop becomes a fueled step
function, the session controller becomes explicit state passing over an
oracle describing the external page driver, and CSV files become lists of
rows.  All definitions are executable.
-/

namespace AlumniTracer

/-! ## Match scorer

`Main.py` scores `fuzz.ratio(name.lower(), profile_name.lower())`
(line 264).  `fuzz.ratio` (fuzzywuzzy with its python-Levenshtein backend)
returns `int(round(100 * (lensum - dist) / lensum))` where `dist` is the
Levenshtein distance with substitution cost 2; that distance equals
`lensum - 2 * LCS`, so the score is `100 * 2 * LCS / lensum`, rounded half
to even (Python 3 `round`), and 100 when both strings are empty. -/

/-- Length of the longest common subsequence of two character lists,
written with nested structural recursion so that it evaluates inside the
kernel. -/
def lcs (s : List Char) : List Char → Nat :=
  s.rec (fun _ => 0)
    (fun a _ ih =>
      fun t => t.rec 0
        (fun b bs ihb => if a = b then ih bs + 1 else max ihb (ih (b :: bs))))

theorem lcs_nil (t : List Char) : lcs [] t = 0 := rfl

theorem lcs_cons_nil (a : Char) (as : List Char) : lcs (a :: as) [] = 0 := rfl

theorem lcs_cons_cons (a b : Char) (as bs : List Char) :
    lcs (a :: as) (b :: bs) =
      if a = b then lcs as bs + 1
      else max (lcs (a :: as) bs) (lcs as (b :: bs)) := rfl

/-- Round `num / den` half to even (Python 3 `round` on a nonnegative
rational), with `den ≠ 0` expected. -/
def intr (num den : Nat) : Nat :=
  let q := num / den
  let r := num % den
  if 2 * r < den then q
  else if den < 2 * r then q + 1
  else if q % 2 = 0 then q else q + 1

/-- The `fuzz.ratio` score on two character lists: `round(100 * 2*LCS / (|s1|+|s2|))`,
`100` when both are empty. -/
def ratio (s1 s2 : List Char) : Nat :=
  let total := s1.length + s2.length
  if total = 0 then 100 else intr (200 * lcs s1 s2) total

/-- Python `str.lower()` on the characters of a string. -/
def lowered (s : String) : List Char :=
  s.data.map Char.toLower

/-- The score computed at `Main.py` line 264:
`fuzz.ratio(name.lower(), profile_name.lower())`. -/
def matchScore (query candidate : String) : Nat :=
  ratio (lowered query) (lowered candidate)

theorem lcs_comm (s t : List Char) : lcs s t = lcs t s := by
  induction s generalizing t with
  | nil => cases t <;> simp [lcs_nil, lcs_cons_nil]
  | cons a as ih =>
    induction t with
    | nil => simp [lcs_nil, lcs_cons_nil]
    | cons b bs iht =>
      rw [lcs_cons_cons, lcs_cons_cons]
      by_cases h : a = b
      · subst h
        simp [ih]
      · rw [if_neg h, if_neg (fun hba => h hba.symm), ih (b :: bs), ← iht,
          Nat.max_comm]

theorem ratio_comm (s t : List Char) : ratio s t = ratio t s := by
  unfold ratio
  rw [lcs_comm, Nat.add_comm]

example : matchScore "Jane Doe" "Jane Doe" = 100 := by decide
example : matchScore "JANE DOE" "jane doe" = 100 := by decide

/-! ## Page model

The external page driver is modelled by the data the Python code reads
from it.  A `Container` is one `div[data-chameleon-result-urn]` search
result: the inner text of its `a span[aria-hidden='true']` name element
(if present), whether it has an `a[href]` link, whether clicking
it / loading the profile page raises, and the profile page reached by
the click.  A `PageProfile` carries the optional inner texts the
extraction code queries. -/

/-- Python `str.strip()`: drop whitespace from both ends. -/
def strip (s : String) : String :=
  ⟨((s.data.dropWhile Char.isWhitespace).reverse.dropWhile
      Char.isWhitespace).reverse⟩

/-- The pattern `element.inner_text().strip() if element else "N/A"`
(`Main.py` lines 103, 106, 109, 125-126, 146-149, 164). -/
def naOr : Option String → String
  | some t => strip t
  | none => "N/A"

/-- A loaded profile page, as read by `extract_profile_data`. -/
structure PageProfile where
  h1 : Option String
  headlineEl : Option String
  locationEl : Option String
  education : List (Option String × Option String)
  experiences : List (Option String × Option String × Option String × Option String)
  skills : List (Option String)
deriving DecidableEq

/-- One search-result container (`Main.py` lines 253, 258-261, 285-288). -/
structure Container where
  nameEl : Option String
  hasLink : Bool
  clickRaises : Bool
  page : PageProfile
deriving DecidableEq

/-- An entry of `matched_profiles` (`Main.py` lines 268-271). -/
structure Matched where
  container : Container
  name : String
deriving DecidableEq

/-- What one iteration of the `while attempt < 2` loop observes from the
driver: either the search/scoring phase raises, or the search yields a
list of result containers. -/
inductive AttemptOutcome where
  | raised
  | results (containers : List Container)
deriving DecidableEq

/-! ## Records produced by the run -/

/-- A row of `extracted_profiles` (`Main.py` lines 296-301, 321-326). -/
structure ProfileRow where
  name : String
  headline : String
  location : String
  duplicate_count : Nat
deriving DecidableEq

/-- A row of `extracted_education` (`Main.py` line 305). -/
structure EduRow where
  name : String
  school : String
  duration : String
deriving DecidableEq

/-- A row of `extracted_experiences` (`Main.py` line 307). -/
structure ExpRow where
  name : String
  title : String
  company : String
  duration : String
  location : String
deriving DecidableEq

/-- A row of `extracted_skills` (`Main.py` line 309). -/
structure SkillRow where
  name : String
  skill : String
deriving DecidableEq

/-- The four accumulator lists of `search_and_handle_profiles`
(`Main.py` lines 236-239). -/
structure Extracted where
  profiles : List ProfileRow
  education : List EduRow
  experiences : List ExpRow
  skills : List SkillRow
deriving DecidableEq

/-- The flat record `extract_profile_data` builds from a page
(`Main.py` lines 87-170). -/
structure ProfileData where
  name : String
  headline : String
  location : String
  education : List (String × String)
  experiences : List (String × String × String × String)
  skills : List String
deriving DecidableEq

/-- The extractor `extract_profile_data` (`Main.py` lines 87-170): each field is the
stripped inner text of its element, `"N/A"` when the element is absent. -/
def extract_profile_data (pp : PageProfile) : ProfileData where
  name := naOr pp.h1
  headline := naOr pp.headlineEl
  location := naOr pp.locationEl
  education := pp.education.map (fun e => (naOr e.1, naOr e.2))
  experiences := pp.experiences.map
    (fun e => (naOr e.1, naOr e.2.1, naOr e.2.2.1, naOr e.2.2.2))
  skills := pp.skills.map naOr

/-! ## The per-candidate resolution loop -/

/-- The `for container in profile_containers` scoring loop
(`Main.py` lines 258-271): for each container with a name element, strip
its text, score it against the query, and append it to the accumulated
`matched_profiles` when the score is at least 90. -/
def addMatches (query : String) (containers : List Container)
    (matched : List Matched) : List Matched :=
  containers.foldl
    (fun acc c =>
      match c.nameEl with
      | some t =>
        let profile_name := strip t
        if 90 ≤ matchScore query profile_name then acc ++ [⟨c, profile_name⟩]
        else acc
      | none => acc)
    matched

/-- The duplicate-count sum (`Main.py` lines 277-281): over all pairs of
an existing extracted profile and a matched profile, count those whose
lowered names score at least 90. -/
def duplicateCount (profiles : List ProfileRow) (matched : List Matched) : Nat :=
  (profiles.map (fun e =>
    (matched.map (fun m => if 90 ≤ matchScore e.name m.name then 1 else 0)).sum)).sum

/-- Result of one iteration of the `while attempt < 2` body:
continue looping (with the possibly-updated attempt counter), `break` on
an empty result list, or `break` after resolving a profile. -/
inductive IterResult where
  | again (attempt : Nat) (matched : List Matched)
  | breakEmpty (attempt : Nat) (matched : List Matched)
  | resolved (pp : PageProfile) (dup : Nat) (attempt : Nat) (matched : List Matched)
deriving DecidableEq

/-- One iteration of the `while attempt < 2` body (`Main.py` lines
246-317) given what the driver produced for this iteration.  An
exception anywhere in the `try` is `attempt += 1`; empty
`profile_containers` is `break`; otherwise matches are accumulated and,
if `matched_profiles` is nonempty, its first entry is followed: no
`a[href]` falls through the `if profile_link:` with neither a `break`
nor an increment, a raising click is `attempt += 1`, and otherwise the
profile is extracted and the loop `break`s. -/
def runIter (query : String) (profiles : List ProfileRow) (o : AttemptOutcome)
    (attempt : Nat) (matched : List Matched) : IterResult :=
  match o with
  | .raised => .again (attempt + 1) matched
  | .results containers =>
    if containers.isEmpty then .breakEmpty attempt matched
    else
      match addMatches query containers matched with
      | [] => .again (attempt + 1) []
      | m :: rest =>
        if m.container.hasLink then
          if m.container.clickRaises then .again (attempt + 1) (m :: rest)
          else
            .resolved m.container.page (duplicateCount profiles (m :: rest))
              attempt (m :: rest)
        else .again attempt (m :: rest)

/-- Result of the whole `while attempt < 2` loop: a normal exit (via the
guard or a `break`), a resolution, or fuel exhaustion — the loop body ran
`fuel` times without exiting.  `iters` counts how many times the body
(and hence the search) ran. -/
inductive LoopResult where
  | done (attempt : Nat) (matched : List Matched) (iters : Nat)
  | resolvedDone (pp : PageProfile) (dup : Nat) (matched : List Matched) (iters : Nat)
  | fuelOut
deriving DecidableEq

/-- The `while attempt < 2` loop (`Main.py` lines 246-317), fueled.  The
driver oracle `ora` gives the outcome of the `n`-th execution of the
body. -/
def runWhile (query : String) (profiles : List ProfileRow)
    (ora : Nat → AttemptOutcome) :
    Nat → Nat → List Matched → Nat → LoopResult
  | 0, attempt, matched, iters =>
    if attempt < 2 then .fuelOut else .done attempt matched iters
  | fuel + 1, attempt, matched, iters =>
    if attempt < 2 then
      match runIter query profiles (ora iters) attempt matched with
      | .again a m => runWhile query profiles ora fuel a m (iters + 1)
      | .breakEmpty a m => .done a m (iters + 1)
      | .resolved pp dup _ m => .resolvedDone pp dup m (iters + 1)
    else .done attempt matched iters

/-- The sentinel row appended after two matchless attempts
(`Main.py` lines 319-326). -/
def sentinelRow (query : String) : ProfileRow :=
  ⟨query, "N/A", "N/A", 0⟩

/-- Appending one resolved profile and its education / experience / skill
sub-records to the accumulators (`Main.py` lines 290-309). -/
def appendResolved (ex : Extracted) (pp : PageProfile) (dup : Nat) : Extracted :=
  let pd := extract_profile_data pp
  { profiles := ex.profiles ++ [⟨pd.name, pd.headline, pd.location, dup⟩]
    education := ex.education ++ pd.education.map (fun e => ⟨pd.name, e.1, e.2⟩)
    experiences := ex.experiences ++
      pd.experiences.map (fun e => ⟨pd.name, e.1, e.2.1, e.2.2.1, e.2.2.2⟩)
    skills := ex.skills ++ pd.skills.map (fun s => ⟨pd.name, s⟩) }

/-- Processing of one candidate name (`Main.py` lines 241-326): run the
attempt loop from `attempt = 0`, `matched_profiles = []`; on resolution
append the profile and its sub-records; after a normal loop exit append
the sentinel exactly when `attempt == 2 and not matched_profiles`.
`none` means the loop never exited (fuel ran out). -/
def processName (ora : Nat → AttemptOutcome) (fuel : Nat) (query : String)
    (ex : Extracted) : Option Extracted :=
  match runWhile query ex.profiles ora fuel 0 [] 0 with
  | .fuelOut => none
  | .done attempt matched _ =>
    if attempt = 2 ∧ matched = [] then
      some { ex with profiles := ex.profiles ++ [sentinelRow query] }
    else some ex
  | .resolvedDone pp dup _ _ => some (appendResolved ex pp dup)

/-- The `for name in names` loop of `search_and_handle_profiles`
(`Main.py` lines 227-332), with a per-name driver oracle `ora i`. -/
def search_and_handle_profiles (ora : Nat → Nat → AttemptOutcome) (fuel : Nat) :
    List String → Nat → Extracted → Option Extracted
  | [], _, ex => some ex
  | n :: ns, i, ex =>
    match processName (ora i) fuel n ex with
    | none => none
    | some ex' => search_and_handle_profiles ora fuel ns (i + 1) ex'

/-- Empty accumulators (`Main.py` lines 236-239). -/
def ex0 : Extracted := ⟨[], [], [], []⟩

/-- An exactly-matching search result for "Jane Doe" whose profile page
shows the heading "Jane Doe". -/
def janePage : PageProfile := ⟨some "Jane Doe", none, none, [], [], []⟩

/-- A container whose name element reads "Jane Doe" and which clicks
through to `janePage`. -/
def janeContainer : Container := ⟨some "Jane Doe", true, false, janePage⟩

example :
    search_and_handle_profiles (fun _ _ => .results [janeContainer]) 2
      ["Jane Doe", "Jane Doe", "Jane Doe"] 0 ex0 =
    some ⟨[⟨"Jane Doe", "N/A", "N/A", 0⟩, ⟨"Jane Doe", "N/A", "N/A", 1⟩,
      ⟨"Jane Doe", "N/A", "N/A", 2⟩], [], [], []⟩ := by decide

example :
    search_and_handle_profiles (fun _ _ => .results []) 2
      ["John Smith"] 0 ex0 = some ex0 := by decide

/-! ## Helper lemmas about the resolver -/

/-- Processing one name only ever appends to the four accumulator lists,
and appends at most one profile row. -/
theorem processName_appends (ora : Nat → AttemptOutcome) (fuel : Nat)
    (query : String) (ex ex' : Extracted)
    (h : processName ora fuel query ex = some ex') :
    ex.profiles <+: ex'.profiles ∧ ex.education <+: ex'.education ∧
    ex.experiences <+: ex'.experiences ∧ ex.skills <+: ex'.skills ∧
    ex'.profiles.length ≤ ex.profiles.length + 1 := by
  unfold processName at h
  cases hw : runWhile query ex.profiles ora fuel 0 [] 0 with
  | fuelOut => rw [hw] at h; exact absurd h (by simp)
  | done attempt matched iters =>
    rw [hw] at h
    dsimp only at h
    by_cases hc : attempt = 2 ∧ matched = []
    · rw [if_pos hc] at h
      cases h
      refine ⟨⟨_, rfl⟩, List.prefix_rfl, List.prefix_rfl, List.prefix_rfl, ?_⟩
      simp
    · rw [if_neg hc] at h
      cases h
      exact ⟨List.prefix_rfl, List.prefix_rfl, List.prefix_rfl,
        List.prefix_rfl, Nat.le_succ_of_le Nat.le.refl⟩
  | resolvedDone pp dup matched iters =>
    rw [hw] at h
    dsimp only at h
    cases h
    refine ⟨⟨_, rfl⟩, ⟨_, rfl⟩, ⟨_, rfl⟩, ⟨_, rfl⟩, ?_⟩
    simp [appendResolved]

/-- The whole name loop only ever appends, and appends at most one
profile row per input name. -/
theorem search_appends :
    ∀ (ora : Nat → Nat → AttemptOutcome) (fuel : Nat) (names : List String)
      (i : Nat) (ex ex' : Extracted),
      search_and_handle_profiles ora fuel names i ex = some ex' →
      (ex.profiles <+: ex'.profiles ∧ ex.education <+: ex'.education ∧
        ex.experiences <+: ex'.experiences ∧ ex.skills <+: ex'.skills) ∧
      ex'.profiles.length ≤ ex.profiles.length + names.length := by
  intro ora fuel names
  induction names with
  | nil =>
    intro i ex ex' h
    cases h
    exact ⟨⟨List.prefix_rfl, List.prefix_rfl, List.prefix_rfl,
      List.prefix_rfl⟩, by simp⟩
  | cons n ns ih =>
    intro i ex ex' h
    unfold search_and_handle_profiles at h
    cases hp : processName (ora i) fuel n ex with
    | none => rw [hp] at h; exact absurd h (by simp)
    | some exm =>
      rw [hp] at h
      obtain ⟨p1, p2, p3, p4, hlen⟩ := processName_appends _ _ _ _ _ hp
      obtain ⟨⟨q1, q2, q3, q4⟩, hlen2⟩ := ih (i + 1) exm ex' h
      refine ⟨⟨p1.trans q1, p2.trans q2, p3.trans q3, p4.trans q4⟩, ?_⟩
      simp only [List.length_cons]
      omega

/-- The number of (existing profile, new match) pairs whose names score
at least 90 — the pair-counting reading of the duplicate formula. -/
def matchingPairCount (profiles : List ProfileRow) (matched : List Matched) : Nat :=
  ((profiles.map (fun e => matched.map (fun m => (e, m)))).flatten).countP
    (fun p => 90 ≤ matchScore p.1.name p.2.name)

theorem sum_indicator_eq_countP (e : ProfileRow) (matched : List Matched) :
    (matched.map (fun m => if 90 ≤ matchScore e.name m.name then 1 else 0)).sum =
      (matched.map (fun m => (e, m))).countP
        (fun p => 90 ≤ matchScore p.1.name p.2.name) := by
  induction matched with
  | nil => rfl
  | cons m ms ih =>
    simp only [List.map_cons, List.sum_cons, List.countP_cons, ih]
    by_cases h : 90 ≤ matchScore e.name m.name
    · simp [h, Nat.add_comm]
    · simp [h]

/-! ## Claim theorems for the resolver -/

/-- C9: the match score of `Main.py` line 264 is case-insensitive (it
depends only on the lowered characters of either argument), symmetric,
and the scoring loop accepts a search result into `matched_profiles`
exactly when the score of its stripped display name is at least 90. -/
theorem c9_score_case_insensitive_symmetric_threshold :
    (∀ q₁ q₂ c₁ c₂ : String, lowered q₁ = lowered q₂ → lowered c₁ = lowered c₂ →
      matchScore q₁ c₁ = matchScore q₂ c₂) ∧
    (∀ q c : String, matchScore q c = matchScore c q) ∧
    (∀ (q t : String) (c : Container) (m : List Matched), c.nameEl = some t →
      addMatches q [c] m =
        if 90 ≤ matchScore q (strip t) then m ++ [⟨c, strip t⟩] else m) := by
  refine ⟨?_, ?_, ?_⟩
  · intro q₁ q₂ c₁ c₂ hq hc
    unfold matchScore
    rw [hq, hc]
  · intro q c
    unfold matchScore
    exact ratio_comm _ _
  · intro q t c m h
    simp [addMatches, h]

/-- Witness for C9 at concrete inputs: differently-cased copies of the
same names receive equal scores. -/
theorem c9_score_case_insensitive_symmetric_threshold_witness :
    matchScore "JANE doe" "Jane DOE" = matchScore "jane DOE" "JANE DoE" :=
  c9_score_case_insensitive_symmetric_threshold.1
    "JANE doe" "jane DOE" "Jane DOE" "JANE DoE" (by decide) (by decide)

/-- Inside a single `search_and_handle_profiles` call over several
names the accumulator does carry over from one name to the next, so
three "Jane Doe" candidates in one call would get duplicate counts
0, 1, 2.  The program never makes such a call: the controller at
`Main.py` line 361 always passes a singleton list, which resets
`extracted_profiles` (line 236) for every candidate of the run — see
the run-level theorem below. -/
theorem multiNameCall_duplicate_count_accumulates :
    search_and_handle_profiles (fun _ _ => .results [janeContainer]) 2
      ["Jane Doe", "Jane Doe", "Jane Doe"] 0 ex0 =
    some ⟨[⟨"Jane Doe", "N/A", "N/A", 0⟩, ⟨"Jane Doe", "N/A", "N/A", 1⟩,
      ⟨"Jane Doe", "N/A", "N/A", 2⟩], [], [], []⟩ := by decide

/-- The fault-free composition of the controller's candidate loop with
the resolver: for each run index the controller invokes
`search_and_handle_profiles(page, [name], output_directory)`
(`Main.py` line 361) — a singleton list, so the accumulators of line
236 start empty on every call — and the profile rows each call appends
are persisted in run order.  Returns the run's persisted profile rows. -/
def controllerRunProfiles (ora : Nat → Nat → AttemptOutcome) (fuel : Nat) :
    List String → Nat → Option (List ProfileRow)
  | [], _ => some []
  | n :: ns, i =>
    match search_and_handle_profiles (fun _ => ora i) fuel [n] 0 ex0 with
    | none => none
    | some ex =>
      match controllerRunProfiles ora fuel ns (i + 1) with
      | none => none
      | some rest => some (ex.profiles ++ rest)

theorem duplicateCount_nil_profiles (matched : List Matched) :
    duplicateCount [] matched = 0 := rfl

theorem runIter_nil_profiles_dup (query : String) (o : AttemptOutcome)
    (attempt : Nat) (matched : List Matched) (pp : PageProfile) (d a2 : Nat)
    (m2 : List Matched)
    (h : runIter query [] o attempt matched = .resolved pp d a2 m2) : d = 0 := by
  unfold runIter at h
  cases o with
  | raised => simp at h
  | results containers =>
    dsimp only at h
    by_cases he : containers.isEmpty
    · rw [if_pos he] at h
      simp at h
    · rw [if_neg he] at h
      cases ham : addMatches query containers matched with
      | nil => rw [ham] at h; simp at h
      | cons m rest =>
        rw [ham] at h
        dsimp only at h
        by_cases hl : m.container.hasLink = true
        · rw [if_pos hl] at h
          by_cases hcr : m.container.clickRaises = true
          · rw [if_pos hcr] at h
            simp at h
          · rw [if_neg hcr] at h
            injection h with h1 h2 h3 h4
            rw [← h2, duplicateCount_nil_profiles]
        · rw [if_neg hl] at h
          simp at h

theorem runWhile_nil_profiles_dup (query : String) (ora : Nat → AttemptOutcome) :
    ∀ (fuel attempt : Nat) (matched : List Matched) (iters : Nat)
      (pp : PageProfile) (d : Nat) (m2 : List Matched) (it2 : Nat),
      runWhile query [] ora fuel attempt matched iters =
        .resolvedDone pp d m2 it2 → d = 0 := by
  intro fuel
  induction fuel with
  | zero =>
    intro attempt matched iters pp d m2 it2 h
    unfold runWhile at h
    by_cases ha : attempt < 2
    · rw [if_pos ha] at h
      simp at h
    · rw [if_neg ha] at h
      simp at h
  | succ n ih =>
    intro attempt matched iters pp d m2 it2 h
    unfold runWhile at h
    by_cases ha : attempt < 2
    · rw [if_pos ha] at h
      cases hit : runIter query [] (ora iters) attempt matched with
      | again a m =>
        rw [hit] at h
        exact ih a m (iters + 1) pp d m2 it2 h
      | breakEmpty a m =>
        rw [hit] at h
        simp at h
      | resolved pp2 d2 a2 m3 =>
        rw [hit] at h
        injection h with h1 h2 h3 h4
        rw [← h2]
        exact runIter_nil_profiles_dup query (ora iters) attempt matched
          pp2 d2 a2 m3 hit
    · rw [if_neg ha] at h
      simp at h

theorem processName_from_ex0_dup_zero (ora : Nat → AttemptOutcome)
    (fuel : Nat) (query : String) (ex' : Extracted)
    (h : processName ora fuel query ex0 = some ex') :
    ∀ r ∈ ex'.profiles, r.duplicate_count = 0 := by
  unfold processName at h
  cases hw : runWhile query ex0.profiles ora fuel 0 [] 0 with
  | fuelOut => rw [hw] at h; simp at h
  | done attempt matched iters =>
    rw [hw] at h
    dsimp only at h
    by_cases hc : attempt = 2 ∧ matched = []
    · rw [if_pos hc] at h
      cases h
      intro r hr
      have hr2 : r = sentinelRow query := by simpa [ex0] using hr
      rw [hr2]
      rfl
    · rw [if_neg hc] at h
      cases h
      intro r hr
      simp [ex0] at hr
  | resolvedDone pp dup matched iters =>
    rw [hw] at h
    dsimp only at h
    cases h
    have hd : dup = 0 :=
      runWhile_nil_profiles_dup query ora fuel 0 [] 0 pp dup matched iters hw
    intro r hr
    have hr2 : r = ⟨(extract_profile_data pp).name,
        (extract_profile_data pp).headline, (extract_profile_data pp).location,
        dup⟩ := by
      simpa [appendResolved, ex0] using hr
    rw [hr2, hd]

theorem singletonCall_dup_zero (ora : Nat → Nat → AttemptOutcome) (fuel : Nat)
    (n : String) (ex' : Extracted)
    (h : search_and_handle_profiles ora fuel [n] 0 ex0 = some ex') :
    ∀ r ∈ ex'.profiles, r.duplicate_count = 0 := by
  unfold search_and_handle_profiles at h
  cases hp : processName (ora 0) fuel n ex0 with
  | none => rw [hp] at h; simp at h
  | some exm =>
    rw [hp] at h
    dsimp only at h
    unfold search_and_handle_profiles at h
    injection h with h1
    rw [← h1]
    exact processName_from_ex0_dup_zero (ora 0) fuel n exm hp

theorem controllerRunProfiles_dup_zero :
    ∀ (ora : Nat → Nat → AttemptOutcome) (fuel : Nat) (names : List String)
      (i : Nat) (rows : List ProfileRow),
      controllerRunProfiles ora fuel names i = some rows →
      ∀ r ∈ rows, r.duplicate_count = 0 := by
  intro ora fuel names
  induction names with
  | nil =>
    intro i rows h
    cases h
    intro r hr
    simp at hr
  | cons n ns ih =>
    intro i rows h
    unfold controllerRunProfiles at h
    cases hc : search_and_handle_profiles (fun _ => ora i) fuel [n] 0 ex0 with
    | none => rw [hc] at h; simp at h
    | some ex =>
      rw [hc] at h
      cases hrest : controllerRunProfiles ora fuel ns (i + 1) with
      | none => rw [hrest] at h; simp at h
      | some rest =>
        rw [hrest] at h
        dsimp only at h
        cases h
        intro r hr
        rcases List.mem_append.mp hr with h1 | h2
        · exact singletonCall_dup_zero (fun _ => ora i) fuel n ex hc r h1
        · exact ih (i + 1) rest hrest r h2

/-- C3 (code bug): in the run the program actually performs, the
duplicate count never accumulates across candidates.  The controller
(`Main.py` line 361) hands `search_and_handle_profiles` a singleton
`[name]`, and line 236 re-initialises `extracted_profiles = []` on
every call, so the accepted set is always empty when the count of
lines 277-281 is computed: every profile row persisted by a run has
`duplicate_count = 0`, and three matching "Jane Doe" candidates get
0, 0, 0 — not the 0, 1, 2 the claim describes. -/
theorem c3_run_never_accumulates :
    (∀ (ora : Nat → Nat → AttemptOutcome) (fuel : Nat) (names : List String)
      (i : Nat) (rows : List ProfileRow),
      controllerRunProfiles ora fuel names i = some rows →
      ∀ r ∈ rows, r.duplicate_count = 0) ∧
    controllerRunProfiles (fun _ _ => .results [janeContainer]) 2
      ["Jane Doe", "Jane Doe", "Jane Doe"] 0 =
    some [⟨"Jane Doe", "N/A", "N/A", 0⟩, ⟨"Jane Doe", "N/A", "N/A", 0⟩,
      ⟨"Jane Doe", "N/A", "N/A", 0⟩] :=
  ⟨controllerRunProfiles_dup_zero, by decide⟩

/-- Witness for C3 at the three-"Jane Doe" run: the theorem applied to
the concrete run output shows its rows carry duplicate count 0. -/
theorem c3_run_never_accumulates_witness :
    (ProfileRow.mk "Jane Doe" "N/A" "N/A" 0).duplicate_count = 0 :=
  c3_run_never_accumulates.1 (fun _ _ => .results [janeContainer]) 2
    ["Jane Doe", "Jane Doe", "Jane Doe"] 0
    [⟨"Jane Doe", "N/A", "N/A", 0⟩, ⟨"Jane Doe", "N/A", "N/A", 0⟩,
      ⟨"Jane Doe", "N/A", "N/A", 0⟩]
    (by decide) ⟨"Jane Doe", "N/A", "N/A", 0⟩ (by decide)

/-- C4: the duplicate count attached to a resolved profile is exactly
the number of (existing recorded profile, newly matched candidate) pairs
scoring at least 90 — summed over all pairs, not deduplicated — and the
resolver only ever appends to the record lists, never modifying rows
recorded earlier. -/
theorem c4_duplicate_count_is_pair_count :
    (∀ (profiles : List ProfileRow) (matched : List Matched),
      duplicateCount profiles matched = matchingPairCount profiles matched) ∧
    (∀ (ora : Nat → Nat → AttemptOutcome) (fuel : Nat) (names : List String)
      (i : Nat) (ex ex' : Extracted),
      search_and_handle_profiles ora fuel names i ex = some ex' →
      ex.profiles <+: ex'.profiles ∧ ex.education <+: ex'.education ∧
      ex.experiences <+: ex'.experiences ∧ ex.skills <+: ex'.skills) := by
  constructor
  · intro profiles matched
    induction profiles with
    | nil => rfl
    | cons e es ih =>
      simp only [duplicateCount, matchingPairCount, List.map_cons,
        List.sum_cons] at *
      rw [ih, sum_indicator_eq_countP, List.flatten_cons, List.countP_append]
  · intro ora fuel names i ex ex' h
    exact (search_appends ora fuel names i ex ex' h).1

/-- Witness for C4 at a concrete run: the prior (empty) accumulators are
prefixes of the accumulators after resolving one "Jane Doe". -/
theorem c4_duplicate_count_is_pair_count_witness :
    ex0.profiles <+:
      (⟨[⟨"Jane Doe", "N/A", "N/A", 0⟩], [], [], []⟩ : Extracted).profiles :=
  (c4_duplicate_count_is_pair_count.2 (fun _ _ => .results [janeContainer]) 2
    ["Jane Doe"] 0 ex0 ⟨[⟨"Jane Doe", "N/A", "N/A", 0⟩], [], [], []⟩
    (by decide)).1

/-- C1 counterexample: a completed run over one candidate whose search
returns no result entries produces zero profile records, not one. -/
theorem c1_counterexample_empty_search_skips :
    search_and_handle_profiles (fun _ _ => .results []) 2 ["John Smith"] 0 ex0 =
      some ex0 ∧ ex0.profiles.length = 0 ∧ ["John Smith"].length = 1 := by decide

/-- C1 (amended): no candidate ever yields more than one profile record —
a completed run appends at most one profile row per input name — but a
candidate can be skipped with no record at all. -/
theorem c1_at_most_one_record_per_candidate :
    ∀ (ora : Nat → Nat → AttemptOutcome) (fuel : Nat) (names : List String)
      (i : Nat) (ex ex' : Extracted),
      search_and_handle_profiles ora fuel names i ex = some ex' →
      ex'.profiles.length ≤ ex.profiles.length + names.length :=
  fun ora fuel names i ex ex' h => (search_appends ora fuel names i ex ex' h).2

/-- Witness for C1 (amended) at the three-"Jane Doe" run: three names in,
three profile rows out. -/
theorem c1_at_most_one_record_per_candidate_witness :
    (3 : Nat) ≤ 0 + (3 : Nat) :=
  c1_at_most_one_record_per_candidate (fun _ _ => .results [janeContainer]) 2
    ["Jane Doe", "Jane Doe", "Jane Doe"] 0 ex0
    ⟨[⟨"Jane Doe", "N/A", "N/A", 0⟩, ⟨"Jane Doe", "N/A", "N/A", 1⟩,
      ⟨"Jane Doe", "N/A", "N/A", 2⟩], [], [], []⟩ (by decide)

/-- C2 counterexample: a candidate whose search returns zero entries
yields no record at all — in particular no `Unresolved` sentinel row. -/
theorem c2_counterexample_no_sentinel_for_empty :
    processName (fun _ => .results []) 2 "John Smith" ex0 = some ex0 := by decide

/-- C2 (amended): when the first search attempt returns zero result
entries the loop `break`s immediately: exactly one search is issued, no
second attempt occurs, and no record of any kind is produced for the
candidate. -/
theorem c2_empty_results_single_attempt_skip :
    ∀ (ora : Nat → AttemptOutcome) (fuel : Nat) (query : String) (ex : Extracted),
      ora 0 = .results [] →
      runWhile query ex.profiles ora (fuel + 1) 0 [] 0 = .done 0 [] 1 ∧
      processName ora (fuel + 1) query ex = some ex := by
  intro ora fuel query ex h
  have h1 : runWhile query ex.profiles ora (fuel + 1) 0 [] 0 = .done 0 [] 1 := by
    unfold runWhile
    rw [h]
    simp [runIter]
  refine ⟨h1, ?_⟩
  unfold processName
  rw [h1]
  simp

/-- Witness for C2 (amended) at a concrete empty-search driver. -/
theorem c2_empty_results_single_attempt_skip_witness :
    processName (fun _ => .results []) 3 "Maria Santos" ex0 = some ex0 :=
  (c2_empty_results_single_attempt_skip (fun _ => .results []) 2
    "Maria Santos" ex0 rfl).2

/-- A search result matching "Jane Doe" perfectly but exposing no
`a[href]` link. -/
def janeNoLink : Container := ⟨some "Jane Doe", false, false, janePage⟩

theorem addMatches_janeNoLink (matched : List Matched) :
    addMatches "Jane Doe" [janeNoLink] matched =
      matched ++ [⟨janeNoLink, "Jane Doe"⟩] := by
  have hs : strip "Jane Doe" = "Jane Doe" := by decide
  have hsc : 90 ≤ matchScore "Jane Doe" "Jane Doe" := by decide
  simp [addMatches, janeNoLink, hs, hsc]

theorem runWhile_noLink_aux :
    ∀ (fuel attempt : Nat) (matched : List Matched) (iters : Nat),
      attempt < 2 →
      (∀ m ∈ matched, m.container.hasLink = false) →
      runWhile "Jane Doe" [] (fun _ => .results [janeNoLink]) fuel attempt
        matched iters = .fuelOut := by
  intro fuel
  induction fuel with
  | zero =>
    intro attempt matched iters ha _
    simp [runWhile, ha]
  | succ n ih =>
    intro attempt matched iters ha hm
    have hiter :
        runIter "Jane Doe" [] (.results [janeNoLink]) attempt matched =
          .again attempt (matched ++ [⟨janeNoLink, "Jane Doe"⟩]) := by
      cases matched with
      | nil => rfl
      | cons y ys =>
        have hy : y.container.hasLink = false := hm y (by simp)
        simp [runIter, addMatches_janeNoLink, hy]
    unfold runWhile
    rw [if_pos ha, hiter]
    exact ih attempt _ (iters + 1) ha (by
      intro m hmem
      rcases List.mem_append.mp hmem with h1 | h2
      · exact hm m h1
      · have hq : m = ⟨janeNoLink, "Jane Doe"⟩ := by simpa using h2
        rw [hq]
        decide)

/-- C5 (code bug): a candidate whose matching search result lacks a
profile link makes the `while attempt < 2` loop run its body forever —
the `if profile_link:` branch has no `else`, so the attempt counter is
never incremented and the loop neither resolves, raises, nor exits, for
any amount of fuel. -/
theorem c5_counterexample_unbounded_searches :
    ∀ fuel : Nat,
      runWhile "Jane Doe" [] (fun _ => .results [janeNoLink]) fuel 0 [] 0 =
        .fuelOut :=
  fun fuel => runWhile_noLink_aux fuel 0 [] 0 (by decide) (by simp)

/-- C10: the name persisted on a resolved profile row is the stripped
`h1` heading of the opened profile page (`"N/A"` when the page has no
heading), and every education, experience and skill sub-record appended
for that candidate carries that same extracted name as its correlation
key. -/
theorem c10_correlation_key_is_extracted_name :
    ∀ (ora : Nat → AttemptOutcome) (fuel : Nat) (query : String) (ex : Extracted)
      (pp : PageProfile) (dup : Nat) (matched : List Matched) (iters : Nat),
      runWhile query ex.profiles ora fuel 0 [] 0 =
        .resolvedDone pp dup matched iters →
      processName ora fuel query ex = some (appendResolved ex pp dup) ∧
      (appendResolved ex pp dup).profiles =
        ex.profiles ++ [⟨naOr pp.h1, naOr pp.headlineEl, naOr pp.locationEl, dup⟩] ∧
      (∀ r ∈ (appendResolved ex pp dup).education,
        r ∈ ex.education ∨ r.name = naOr pp.h1) ∧
      (∀ r ∈ (appendResolved ex pp dup).experiences,
        r ∈ ex.experiences ∨ r.name = naOr pp.h1) ∧
      (∀ r ∈ (appendResolved ex pp dup).skills,
        r ∈ ex.skills ∨ r.name = naOr pp.h1) ∧
      (pp.h1 = none → naOr pp.h1 = "N/A") := by
  intro ora fuel query ex pp dup matched iters h
  refine ⟨?_, rfl, ?_, ?_, ?_, ?_⟩
  · unfold processName
    rw [h]
  · intro r hr
    rcases List.mem_append.mp hr with h1 | h2
    · exact Or.inl h1
    · right
      obtain ⟨e, _, he⟩ := List.mem_map.mp h2
      rw [← he]
      rfl
  · intro r hr
    rcases List.mem_append.mp hr with h1 | h2
    · exact Or.inl h1
    · right
      obtain ⟨e, _, he⟩ := List.mem_map.mp h2
      rw [← he]
      rfl
  · intro r hr
    rcases List.mem_append.mp hr with h1 | h2
    · exact Or.inl h1
    · right
      obtain ⟨e, _, he⟩ := List.mem_map.mp h2
      rw [← he]
      rfl
  · intro h1
    rw [h1]
    rfl

/-- Witness for C10 at the "Jane Doe" driver: the single resolved
profile is persisted under the page heading. -/
theorem c10_correlation_key_is_extracted_name_witness :
    processName (fun _ => .results [janeContainer]) 2 "Jane Doe" ex0 =
      some (appendResolved ex0 janePage 0) :=
  (c10_correlation_key_is_extracted_name (fun _ => .results [janeContainer]) 2
    "Jane Doe" ex0 janePage 0 [⟨janeContainer, "Jane Doe"⟩] 1 (by decide)).1

/-! ## The incremental persistor

`save_data_incrementally` (`Main.py` lines 201-225).  A CSV record is an
insertion-ordered dictionary; the destination file is `none` when
`os.path.isfile` is false and otherwise the list of its rows.  The
embedding also reports whether `writer.writeheader()` ran, so that
header writes can be counted across calls. -/

/-- A record passed to `csv.DictWriter`: ordered key/value pairs. -/
def CsvRec := List (String × String)

/-- The fieldnames `data[0].keys()`. -/
def csvKeys (r : CsvRec) : List String := r.map Prod.fst

/-- Look up field `k` of record `r` (first binding wins). -/
def csvGet (r : CsvRec) (k : String) : String :=
  match List.find? (fun p => p.1 = k) r with
  | some p => p.2
  | none => ""

/-- The row `DictWriter.writerow` emits for `r` under `fieldnames`. -/
def rowFor (fieldnames : List String) (r : CsvRec) : List String :=
  fieldnames.map (csvGet r)

/-- The persistor `save_data_incrementally(data_type, data, file_path)`: empty `data`
returns immediately; otherwise the file is opened in append mode (`'a'`),
`writeheader()` runs only if the file did not exist, and all rows are
appended.  Returns the new file state and whether the header was
written. -/
def save_data_incrementally (data : List CsvRec)
    (file : Option (List (List String))) :
    Option (List (List String)) × Bool :=
  match data with
  | [] => (file, false)
  | d :: _ =>
    let fieldnames := csvKeys d
    let rows := data.map (rowFor fieldnames)
    match file with
    | none => (some (fieldnames :: rows), true)
    | some old => (some (old ++ rows), false)

/-- The lines of a destination (`[]` when the file does not exist). -/
def fileLines : Option (List (List String)) → List (List String)
  | none => []
  | some l => l

/-- A sequence of `save_data_incrementally` calls to one destination:
returns the final file state and the number of header writes. -/
def saveRun : List (List CsvRec) → Option (List (List String)) →
    Option (List (List String)) × Nat
  | [], f => (f, 0)
  | b :: bs, f =>
    let r := save_data_incrementally b f
    let rest := saveRun bs r.1
    (rest.1, (if r.2 then 1 else 0) + rest.2)

theorem save_some_no_header (b : List CsvRec) (old : List (List String)) :
    (save_data_incrementally b (some old)).2 = false ∧
    ∃ new, (save_data_incrementally b (some old)).1 = some new := by
  cases b with
  | nil => exact ⟨rfl, old, rfl⟩
  | cons d ds => exact ⟨rfl, _, rfl⟩

theorem saveRun_some (batches : List (List CsvRec)) :
    ∀ old, (saveRun batches (some old)).2 = 0 := by
  induction batches with
  | nil => intro old; rfl
  | cons b bs ih =>
    intro old
    obtain ⟨hb, new, hnew⟩ := save_some_no_header b old
    simp only [saveRun, hb, hnew, if_neg Bool.false_ne_true, ih new,
      Nat.zero_add]

/-- C6: the incremental persistor is a no-op (not a failure) on an empty
record list; every call preserves the existing destination lines as a
prefix (nothing is rewritten or truncated) and appends exactly the rows
of its records; a whole run of appends starting from an existing
destination writes no header at all; and a run starting from a missing
destination writes the header at most once — exactly once when any batch
is nonempty. -/
theorem c6_incremental_persistor :
    (∀ file, save_data_incrementally [] file = (file, false)) ∧
    (∀ data file,
      fileLines file <+: fileLines (save_data_incrementally data file).1) ∧
    (∀ d ds old, (save_data_incrementally (d :: ds) (some old)).1 =
      some (old ++ (d :: ds).map (rowFor (csvKeys d)))) ∧
    (∀ batches old, (saveRun batches (some old)).2 = 0) ∧
    (∀ batches, (saveRun batches none).2 ≤ 1 ∧
      ((saveRun batches none).2 = 1 ↔ ∃ b ∈ batches, b ≠ ([] : List CsvRec))) := by
  refine ⟨fun file => rfl, ?_, fun d ds old => rfl, fun batches old => saveRun_some batches old, ?_⟩
  · intro data file
    cases data with
    | nil => exact List.prefix_rfl
    | cons d ds =>
      cases file with
      | none => exact List.nil_prefix
      | some old => exact ⟨_, rfl⟩
  · intro batches
    induction batches with
    | nil => simp [saveRun]
    | cons b bs ih =>
      cases b with
      | nil =>
        simp only [saveRun, save_data_incrementally]
        simp only [if_neg Bool.false_ne_true, Nat.zero_add]
        refine ⟨ih.1, ?_⟩
        rw [ih.2]
        constructor
        · rintro ⟨x, hx, hne⟩
          exact ⟨x, List.mem_cons_of_mem _ hx, hne⟩
        · rintro ⟨x, hx, hne⟩
          rcases List.mem_cons.mp hx with h1 | h2
          · exact absurd h1 hne
          · exact ⟨x, h2, hne⟩
      | cons d ds =>
        simp only [saveRun, save_data_incrementally]
        rw [saveRun_some]
        refine ⟨by simp, ?_⟩
        constructor
        · intro _
          exact ⟨d :: ds, List.mem_cons_self _ _, by simp⟩
        · intro _
          simp

/-! ## The session controller

`open_linkedin_login_and_search` (`Main.py` lines 334-374) and
`linkedin_login` (lines 53-85).  The controller treats each
`search_and_handle_profiles(page, [name], dir)` call as an opaque step
that either returns after appending that candidate's records or raises
(e.g. a session fault or an error in the persistence I/O, which is not
caught inside the callee), possibly after a partial append.  Records are
opaque strings here; `log` is the concatenation of everything appended
so far and `tr` is the trace of per-candidate steps. -/

/-- The login page as `linkedin_login` reads it. -/
structure LoginPage where
  verifHeader : Option String
  verifCheckRaises : Bool
  hasSearchBox : Bool
deriving DecidableEq

/-- How `linkedin_login` ends: early return on a detected verification
challenge, normal return, or an exception (search box never appears). -/
inductive LoginResult where
  | verification
  | ok
  | raised
deriving DecidableEq

/-- The phrase checked at `Main.py` line 77. -/
def verificationPhrase : String := "Let’s do a quick verification"

/-- Whether `needle` is a leading run of `haystack`. -/
def isPrefChars : List Char → List Char → Bool
  | [], _ => true
  | _ :: _, [] => false
  | a :: as, b :: bs => a = b && isPrefChars as bs

/-- Python substring containment `needle in haystack`. -/
def containsSub (needle : List Char) : List Char → Bool
  | [] => needle.isEmpty
  | b :: bs => isPrefChars needle (b :: bs) || containsSub needle bs

/-- The login step `linkedin_login` (`Main.py` lines 53-85): after submitting the
credentials, if `h1.content__header` exists and its text contains the
verification phrase, the function prints a notice and returns at once
(an exception in that check is caught and ignored); otherwise it waits
for the search box, raising when the home page never loads. -/
def linkedin_login (pg : LoginPage) : LoginResult :=
  let verifDetected :=
    if pg.verifCheckRaises then false
    else match pg.verifHeader with
      | some t => containsSub verificationPhrase.data t.data
      | none => false
  if verifDetected then .verification
  else if pg.hasSearchBox then .ok else .raised

/-- Outcome of one per-candidate call as the controller observes it:
return after appending `recs`, or raise after appending a (possibly
partial) `recs`. -/
inductive CandResult where
  | ok (recs : List String)
  | raise (recs : List String)

/-- What the external world supplies to one session: a login page and a
per-index candidate outcome. -/
structure SessionEnv where
  loginPage : LoginPage
  cand : Nat → CandResult

/-- One per-candidate step as recorded in the run trace. -/
structure Event where
  session : Nat
  index : Nat
  completed : Bool
  recs : List String
deriving DecidableEq

/-- The resume loop
`for index in range(last_processed_index, len(names))` (`Main.py` lines
357-365): a successful candidate call appends its records and only then
advances `last_processed_index`; a raising call aborts the session
attempt leaving the index unchanged.  `r` is the number of indices left
in the range. -/
def runIndices (cand : Nat → CandResult) (sess : Nat) :
    Nat → Nat → List String → List Event →
      Bool × Nat × List String × List Event
  | 0, lpi, log, tr => (true, lpi, log, tr)
  | r + 1, lpi, log, tr =>
    match cand lpi with
    | .ok recs =>
      runIndices cand sess r (lpi + 1) (log ++ recs)
        (tr ++ [⟨sess, lpi, true, recs⟩])
    | .raise recs =>
      (false, lpi, log ++ recs, tr ++ [⟨sess, lpi, false, recs⟩])

/-- The outer retry loop of `open_linkedin_login_and_search`
(`Main.py` lines 343-374): up to `t` further session attempts; a raising
login consumes a retry; otherwise — including when a verification
challenge was detected, since `linkedin_login` merely returns — the
candidate loop runs from `last_processed_index`; a session completing
the whole range returns success, and a failed one consumes a retry while
keeping `last_processed_index`, `s` being the session counter. -/
def runController (driver : Nat → SessionEnv) (n : Nat) :
    Nat → Nat → Nat → List String → List Event →
      Bool × Nat × List String × List Event
  | 0, _, lpi, log, tr => (false, lpi, log, tr)
  | t + 1, s, lpi, log, tr =>
    match linkedin_login (driver s).loginPage with
    | .raised => runController driver n t (s + 1) lpi log tr
    | _ =>
      match runIndices (driver s).cand s (n - lpi) lpi log tr with
      | (true, lpi2, log2, tr2) => (true, lpi2, log2, tr2)
      | (false, lpi2, log2, tr2) =>
        runController driver n t (s + 1) lpi2 log2 tr2

/-- The indices of the completed steps of a trace, in order. -/
def completedIdx (tr : List Event) : List Nat :=
  (tr.filter (fun e => e.completed)).map (fun e => e.index)

/-- The resume index right after an event: one past a completed index,
the same index after a failure. -/
def nextIdx (e : Event) : Nat := if e.completed then e.index + 1 else e.index

/-- Two consecutive trace events: the later one processes exactly the
resume index left by the earlier one. -/
def stepRel (a b : Event) : Prop := b.index = nextIdx a

/-- The trace's final resume index is `lpi` (and `0` for an empty trace). -/
def lastNext (tr : List Event) (lpi : Nat) : Prop :=
  match tr.getLast? with
  | none => lpi = 0
  | some e => nextIdx e = lpi

/-- The controller's run invariant, tying trace, resume index and
persisted log together. -/
def ctrlInv (tr : List Event) (lpi : Nat) (log : List String) : Prop :=
  completedIdx tr = List.range lpi ∧
  List.Chain' stepRel tr ∧
  lastNext tr lpi ∧
  (∀ e, tr.head? = some e → e.index = 0) ∧
  log = (tr.map Event.recs).flatten

theorem ctrlInv_snoc (tr : List Event) (lpi : Nat) (log : List String)
    (hinv : ctrlInv tr lpi log) (sess : Nat) (c : Bool) (recs : List String) :
    ctrlInv (tr ++ [⟨sess, lpi, c, recs⟩]) (if c then lpi + 1 else lpi)
      (log ++ recs) := by
  obtain ⟨h1, h2, h3, h4, h5⟩ := hinv
  refine ⟨?_, ?_, ?_, ?_, ?_⟩
  · simp only [completedIdx, List.filter_append, List.map_append] at *
    cases c with
    | true => simp [h1, List.range_succ]
    | false => simp [h1]
  · rw [List.chain'_append]
    refine ⟨h2, List.chain'_singleton _, ?_⟩
    intro x hx y hy
    simp only [List.head?_cons, Option.mem_def, Option.some.injEq] at hy
    subst hy
    unfold lastNext at h3
    rw [Option.mem_def] at hx
    rw [hx] at h3
    exact h3.symm
  · unfold lastNext
    rw [List.getLast?_append]
    simp [nextIdx]
  · intro e he
    cases tr with
    | nil =>
      simp only [List.nil_append, List.head?_cons, Option.some.injEq] at he
      subst he
      unfold lastNext at h3
      simp only [List.getLast?_nil] at h3
      simpa using h3
    | cons a as =>
      simp only [List.cons_append, List.head?_cons, Option.some.injEq] at he
      subst he
      exact h4 a rfl
  · simp [h5]

theorem runIndices_inv (cand : Nat → CandResult) (sess : Nat) :
    ∀ (r lpi : Nat) (log : List String) (tr : List Event),
      ctrlInv tr lpi log →
      ctrlInv (runIndices cand sess r lpi log tr).2.2.2
        (runIndices cand sess r lpi log tr).2.1
        (runIndices cand sess r lpi log tr).2.2.1 ∧
      (∀ e ∈ (runIndices cand sess r lpi log tr).2.2.2,
        e ∈ tr ∨ e.session = sess) ∧
      (runIndices cand sess r lpi log tr).2.1 ≤ lpi + r ∧
      ((runIndices cand sess r lpi log tr).1 = true →
        (runIndices cand sess r lpi log tr).2.1 = lpi + r) := by
  intro r
  induction r with
  | zero =>
    intro lpi log tr hinv
    exact ⟨hinv, fun e he => Or.inl he, Nat.le_refl _, fun _ => rfl⟩
  | succ m ih =>
    intro lpi log tr hinv
    cases hc : cand lpi with
    | ok recs =>
      have hstep := ctrlInv_snoc tr lpi log hinv sess true recs
      simp only [if_pos rfl] at hstep
      simp only [runIndices, hc]
      obtain ⟨hi, hmem, hle, hok⟩ := ih (lpi + 1) (log ++ recs)
        (tr ++ [⟨sess, lpi, true, recs⟩]) hstep
      refine ⟨hi, ?_, by omega, fun h => by rw [hok h]; omega⟩
      intro e he
      rcases hmem e he with h1 | h2
      · rcases List.mem_append.mp h1 with ha | hb
        · exact Or.inl ha
        · right
          have : e = ⟨sess, lpi, true, recs⟩ := by simpa using hb
          rw [this]
      · exact Or.inr h2
    | raise recs =>
      have hstep := ctrlInv_snoc tr lpi log hinv sess false recs
      simp only [if_neg Bool.false_ne_true] at hstep
      simp only [runIndices, hc]
      refine ⟨hstep, ?_, by omega, by simp⟩
      intro e he
      rcases List.mem_append.mp he with ha | hb
      · exact Or.inl ha
      · right
        have : e = ⟨sess, lpi, false, recs⟩ := by simpa using hb
        rw [this]

theorem runController_inv (driver : Nat → SessionEnv) (n : Nat) :
    ∀ (t s lpi : Nat) (log : List String) (tr : List Event),
      ctrlInv tr lpi log → lpi ≤ n → s + t ≤ 3 →
      (∀ e ∈ tr, e.session < 3) →
      ctrlInv (runController driver n t s lpi log tr).2.2.2
        (runController driver n t s lpi log tr).2.1
        (runController driver n t s lpi log tr).2.2.1 ∧
      (runController driver n t s lpi log tr).2.1 ≤ n ∧
      (∀ e ∈ (runController driver n t s lpi log tr).2.2.2, e.session < 3) ∧
      ((runController driver n t s lpi log tr).1 = true →
        (runController driver n t s lpi log tr).2.1 = n) := by
  intro t
  induction t with
  | zero =>
    intro s lpi log tr hinv hn _ hsess
    exact ⟨hinv, hn, hsess, by simp [runController]⟩
  | succ m ih =>
    intro s lpi log tr hinv hn hst hsess
    have hs3 : s < 3 := by omega
    cases hl : linkedin_login (driver s).loginPage with
    | raised =>
      simp only [runController, hl]
      exact ih (s + 1) lpi log tr hinv hn (by omega) hsess
    | verification =>
      simp only [runController, hl]
      obtain ⟨hi, hmem, hle, hok⟩ :=
        runIndices_inv (driver s).cand s (n - lpi) lpi log tr hinv
      have hsess2 : ∀ e ∈ (runIndices (driver s).cand s (n - lpi) lpi log
          tr).2.2.2, e.session < 3 := by
        intro e he
        rcases hmem e he with h1 | h2
        · exact hsess e h1
        · rw [h2]; exact hs3
      cases hri : runIndices (driver s).cand s (n - lpi) lpi log tr with
      | mk ok rest =>
        obtain ⟨lpi2, log2, tr2⟩ := rest
        rw [hri] at hi hsess2 hle hok
        dsimp only at hi hsess2 hle hok
        cases ok with
        | true =>
          dsimp only
          have hn2 : lpi2 = lpi + (n - lpi) := hok rfl
          exact ⟨hi, by omega, hsess2, fun _ => by omega⟩
        | false =>
          dsimp only
          exact ih (s + 1) lpi2 log2 tr2 hi (by omega) (by omega) hsess2
    | ok =>
      simp only [runController, hl]
      obtain ⟨hi, hmem, hle, hok⟩ :=
        runIndices_inv (driver s).cand s (n - lpi) lpi log tr hinv
      have hsess2 : ∀ e ∈ (runIndices (driver s).cand s (n - lpi) lpi log
          tr).2.2.2, e.session < 3 := by
        intro e he
        rcases hmem e he with h1 | h2
        · exact hsess e h1
        · rw [h2]; exact hs3
      cases hri : runIndices (driver s).cand s (n - lpi) lpi log tr with
      | mk ok rest =>
        obtain ⟨lpi2, log2, tr2⟩ := rest
        rw [hri] at hi hsess2 hle hok
        dsimp only at hi hsess2 hle hok
        cases ok with
        | true =>
          dsimp only
          have hn2 : lpi2 = lpi + (n - lpi) := hok rfl
          exact ⟨hi, by omega, hsess2, fun _ => by omega⟩
        | false =>
          dsimp only
          exact ih (s + 1) lpi2 log2 tr2 hi (by omega) (by omega) hsess2

/-- C7: over any driver and input length, after the controller's retry
loop (budget 3 sessions): the completed indices are exactly
`0, …, lpi - 1` for the final resume index `lpi` (no gaps and no index
completed twice); consecutive per-candidate steps always process exactly
the resume index left by the previous step — so a failed index is
retried at that same index by the next session and a completed index is
never reprocessed; the first step processes index 0; the persisted log
is exactly the concatenation of the records appended by the steps in
trace order (nothing is discarded by a fault, and the resume index
advances only with a completed, already-appended step); at most 3
sessions run; and a successful exit means the full range completed. -/
theorem c7_resume_index_crash_recovery :
    ∀ (driver : Nat → SessionEnv) (n : Nat) (done : Bool) (lpi : Nat)
      (log : List String) (tr : List Event),
      runController driver n 3 0 0 [] [] = (done, lpi, log, tr) →
      completedIdx tr = List.range lpi ∧
      List.Chain' stepRel tr ∧
      (∀ e, tr.head? = some e → e.index = 0) ∧
      log = (tr.map Event.recs).flatten ∧
      (∀ e ∈ tr, e.session < 3) ∧
      (done = true → lpi = n) := by
  intro driver n done lpi log tr h
  have h0 : ctrlInv [] 0 [] := by
    refine ⟨rfl, List.chain'_nil, ?_, ?_, rfl⟩
    · unfold lastNext
      simp
    · intro e he
      simp at he
  obtain ⟨hi, hn, hsess, hdone⟩ :=
    runController_inv driver n 3 0 0 [] [] h0 (Nat.zero_le _) (by omega)
      (by intro e he; simp at he)
  rw [h] at hi hsess hdone
  dsimp only at hi hsess hdone
  obtain ⟨c1, c2, c3, c4, c5⟩ := hi
  exact ⟨c1, c2, c4, c5, hsess, hdone⟩

/-- A two-candidate driver whose first session fails while processing
index 1 and whose second session completes the range. -/
def witnessDriver : Nat → SessionEnv := fun s =>
  if s = 0 then
    ⟨⟨none, false, true⟩, fun i => if i = 0 then .ok ["p0"] else .raise ["part"]⟩
  else ⟨⟨none, false, true⟩, fun _ => .ok ["q"]⟩

/-- Witness for C7 at `witnessDriver`: the run completes after one
retry, its trace resumes the failed index 1 in session 1 without
reprocessing index 0, and the completed indices are exactly 0 and 1. -/
theorem c7_resume_index_crash_recovery_witness :
    completedIdx [⟨0, 0, true, ["p0"]⟩, ⟨0, 1, false, ["part"]⟩,
      ⟨1, 1, true, ["q"]⟩] = List.range 2 :=
  (c7_resume_index_crash_recovery witnessDriver 2 true 2 ["p0", "part", "q"]
    [⟨0, 0, true, ["p0"]⟩, ⟨0, 1, false, ["part"]⟩, ⟨1, 1, true, ["q"]⟩]
    (by decide)).1

/-- A login page showing the verification-challenge heading (and, as on
the real challenge page, no search box). -/
def verifPage : LoginPage := ⟨some "Let’s do a quick verification", false, false⟩

/-- A driver whose every session lands on the verification page and
whose candidate steps succeed. -/
def verifDriver : Nat → SessionEnv := fun _ => ⟨verifPage, fun _ => .ok ["rec"]⟩

/-- C8 (code bug): `linkedin_login` detects the verification challenge
and returns early after reporting it, but the controller cannot observe
the condition: it proceeds to resolve candidates within that very
session — here candidate 0 is processed and completed in session 0 —
instead of pausing the session for manual intervention. -/
theorem c8_verification_challenge_not_paused :
    linkedin_login verifPage = .verification ∧
    runController verifDriver 1 3 0 0 [] [] =
      (true, 1, ["rec"], [⟨0, 0, true, ["rec"]⟩]) := by decide

end AlumniTracer
